import Mathlib

/-!
Verification development for the `db` package: a shallow embedding of the
configuration/DSN subsystem, the engine-specific DSN adapters, the
instrumentation query classifier and the prepared-statement component,
together with theorems settling the behavioural claims about them.

Modelling conventions:
* Go maps are embedded as association lists (`List (String × α)`); a read of a
  missing key yields the zero value `""`, as in Go.  Go's randomized map
  iteration order is fixed to list (insertion) order.
* Go's `error` values are the inductive `GoError`; `errors.Wrap`/`errors.WrapE`
  from the wrapping library become the `wrapped`/`wrapE` constructors.
* External driver libraries (the MySQL and Snowflake DSN parsers,
  `time.LoadLocation`, the compiled `dsnPattern` regular-expression match) are
  parameters of the functions that call them, collected in `Externals`.
* Opaque runtime handles (contexts, driver instances, `sql.Tx`, `sql.Stmt`,
  `sql.Rows`) are represented by their observable effects: each call that Go
  makes on such a handle is driven by an explicit oracle argument giving that
  call's outcome, and lifecycle functions additionally report the ordered list
  of handle operations they performed so the claims can talk about them.
-/

namespace Db

/-! ## Generic Go string/map helpers -/

/-- The single-quote character (used by the libpq tokenizer). -/
def quoteChar : Char := Char.ofNat 39

/-- The double-quote character. -/
def dquoteChar : Char := Char.ofNat 34

/-- `unicode.IsSpace` from Go's standard library (White_Space property). -/
def goIsSpace (c : Char) : Bool :=
  c.toNat = 9 || c.toNat = 10 || c.toNat = 11 || c.toNat = 12 || c.toNat = 13 ||
  c.toNat = 32 || c.toNat = 0x85 || c.toNat = 0xA0 || c.toNat = 0x1680 ||
  (0x2000 ≤ c.toNat && c.toNat ≤ 0x200A) || c.toNat = 0x2028 || c.toNat = 0x2029 ||
  c.toNat = 0x202F || c.toNat = 0x205F || c.toNat = 0x3000

/-- The Go regexp character class `\s`, i.e. `[\t\n\f\r ]`. -/
def reSpace (c : Char) : Bool :=
  c.toNat = 9 || c.toNat = 10 || c.toNat = 12 || c.toNat = 13 || c.toNat = 32

/-- ASCII lower-casing of a character (`strings.ToLower` restricted to the
ASCII inputs exercised here). -/
def charLower (c : Char) : Char :=
  if 'A' ≤ c ∧ c ≤ 'Z' then Char.ofNat (c.toNat + 32) else c

/-- `strings.ToLower` (ASCII fragment). -/
def goToLower (s : String) : String := String.mk (s.toList.map charLower)

/-- Split a character list around every occurrence of the separator, Go's
`strings.Split` with a one-character separator. -/
def splitChar : List Char → Char → List (List Char)
  | [], _ => [[]]
  | c :: cs, sep =>
    if c = sep then [] :: splitChar cs sep
    else
      match splitChar cs sep with
      | [] => [[c]]
      | h :: t => (c :: h) :: t

/-- `strings.Split` on a one-character separator, string-valued. -/
def goSplit (s : String) (sep : Char) : List String :=
  (splitChar s.toList sep).map String.mk

/-- The predicate "differs from `c`", named so it survives rewriting. -/
def neChar (c x : Char) : Bool := x ≠ c

/-- `strings.Index` for a one-character substring, as a character position
(`-1` when absent).  Only the relative order of two such indexes is ever
consumed, which agrees with Go's byte offsets. -/
def goIndex (l : List Char) (c : Char) : Int :=
  if c ∈ l then ((l.takeWhile (neChar c)).length : Int) else -1

/-- Read a Go map (`""` for a missing key, the zero string value). -/
def goMapGet (m : List (String × String)) (k : String) : String :=
  match m with
  | [] => ""
  | (a, b) :: t => if a = k then b else goMapGet t k

/-- Write a Go map entry: overwrite the existing binding or append a new one. -/
def goMapSet {α : Type} (m : List (String × α)) (k : String) (v : α) :
    List (String × α) :=
  match m with
  | [] => [(k, v)]
  | (a, b) :: t => if a = k then (k, v) :: t else (a, b) :: goMapSet t k v

/-- Go's comma-ok map read. -/
def goMapLookup {α : Type} (m : List (String × α)) (k : String) : Option α :=
  match m with
  | [] => none
  | (a, b) :: t => if a = k then some b else goMapLookup t k

/-- Membership test of a key in a Go map. -/
def goMapHas {α : Type} (m : List (String × α)) (k : String) : Bool :=
  (goMapLookup m k).isSome

/-- `strings.SplitN(v, "=", 2)`. -/
def splitN2 (v : String) : List String :=
  let l := v.toList
  if '=' ∈ l then
    [String.mk (l.takeWhile (fun c => c ≠ '=')),
     String.mk ((l.dropWhile (fun c => c ≠ '=')).drop 1)]
  else [v]

/-- The predicate "is the `&` character", named so it survives rewriting. -/
def ampChar (c : Char) : Bool := c = '&'

/-- Right-trim of every trailing `&`. -/
def trimRightAmp (l : List Char) : List Char :=
  (l.reverse.dropWhile ampChar).reverse

/-- `strings.Trim(s, "&")`: remove all leading and trailing `&` characters. -/
def goTrimAmp (s : String) : String :=
  String.mk (trimRightAmp (s.toList.dropWhile ampChar))

/-- The `&`-joined `key=value` rendering of a parameter list (the claim-side
description of the MySQL generator's query-string suffix). -/
def joinParamsAmp : List (String × String) → String
  | [] => ""
  | [kv] => kv.1 ++ "=" ++ kv.2
  | kv :: rest => kv.1 ++ "=" ++ kv.2 ++ "&" ++ joinParamsAmp rest

/-! ## Errors -/

/-- The Go `error` values the modelled code can produce.  `wrapped` is
`errors.Wrap(err, msg)`, `wrapE` is `errors.WrapE(err, e)`, `external` stands
for an error surfaced by an external library, and `outOfFuel` is the
unreachable exhaustion marker of the fuelled loops of this embedding. -/
inductive GoError : Type where
  | dsnStringEmpty : GoError
  | invalidTLSConfig : GoError
  | invalidOracleDSN : GoError
  | missingEquals (key : String) : GoError
  | missingBackslashChar : GoError
  | unterminatedQuote : GoError
  | external (msg : String) : GoError
  | wrapped (msg : String) (err : GoError) : GoError
  | wrapE (err e : GoError) : GoError
  | outOfFuel : GoError
deriving DecidableEq, Repr

/-- One character of `%q` body rendering: backslash and double quote are
escaped, all other characters pass through. -/
def escChar (c : Char) (acc : List Char) : List Char :=
  if c = '\\' then '\\' :: '\\' :: acc
  else if c = dquoteChar then '\\' :: '"' :: acc
  else c :: acc

/-- `fmt.Sprintf("%q", s)` restricted to the escapes exercised here. -/
def goQuote (s : String) : String :=
  String.mk (('"' :: s.toList.foldr escChar []) ++ ['"'])

/-- The message text of each error value, matching the Go sources verbatim
(including the stray trailing double quote of the libpq-style
missing-`=` message). -/
def goErrorMessage : GoError → String
  | .dsnStringEmpty => "DSNString is empty"
  | .invalidTLSConfig => "invalid value / unknown config name"
  | .invalidOracleDSN => "invalid Oracle DSN string"
  | .missingEquals key =>
      "missing \"=\" after " ++ goQuote key ++ " in connection info string\""
  | .missingBackslashChar => "missing character after backslash"
  | .unterminatedQuote => "unterminated quoted string literal in connection string"
  | .external msg => msg
  | .wrapped msg _ => msg
  | .wrapE e _ => goErrorMessage e
  | .outOfFuel => "model fuel exhausted"

/-- Occurrence of an error anywhere inside a `wrapE` chain. -/
def errContains (x : GoError) : GoError → Bool
  | .wrapE a b => x = .wrapE a b || errContains x a || errContains x b
  | e => x = e

/-! ## The prepared-statement component (`statement.go`) -/

/-- A bind value (Go `interface{}` restricted to the shapes the claims use). -/
inductive GoValue : Type where
  | str (s : String) : GoValue
  | num (n : Int) : GoValue
  | null : GoValue
deriving DecidableEq, Repr

/-- `sql.NamedArg` as produced by `sql.Named(key, value)`. -/
structure NamedArg : Type where
  key : String
  value : GoValue
deriving DecidableEq, Repr

/-- One element of the `[]interface{}` argument slice handed to the driver:
either a named argument or a raw positional value. -/
inductive SqlArg : Type where
  | named (key : String) (value : GoValue) : SqlArg
  | positional (value : GoValue) : SqlArg
deriving DecidableEq, Repr

/-- View a `NamedArg` as a driver argument. -/
def SqlArg.ofNamed (na : NamedArg) : SqlArg := .named na.key na.value

/-- The `Statement` structure.  Opaque handles (`ctx`, `db`, `stmt`, `txn`,
`sql` text) carry no observable state for the claims; `rows` and `result` keep
only the handle identity, `nrtxnPresent` whether a telemetry transaction is
attached. -/
structure Statement : Type where
  binds : List NamedArg := []
  lastErr : Option GoError := none
  result : Option Nat := none
  rows : Option Nat := none
  nrtxnPresent : Bool := false
deriving DecidableEq, Repr

/-- `Statement.Bind`: append a named bind pair (no deduplication). -/
def Statement.Bind (statement : Statement) (key : String) (value : GoValue) :
    Statement :=
  { statement with binds := statement.binds ++ [⟨key, value⟩] }

/-- `Statement.Commit`: `_ = statement.txn.Commit(); return nil`.  The oracle
`txnCommitErr` is the outcome of the underlying `txn.Commit()` call; the Go
code discards it. -/
def Statement.Commit (statement : Statement) (txnCommitErr : Option GoError) :
    Statement × Option GoError :=
  let _ := txnCommitErr
  (statement, none)

/-- The handle operations `Statement.Close` performs, in order. -/
inductive CloseAction : Type where
  | closeRows : CloseAction
  | rollbackTxn : CloseAction
  | closeStmtHandle : CloseAction
  | endTelemetry : CloseAction
deriving DecidableEq, Repr

/-- `Statement.Close`.  `rowsCloseErr`, `rollbackErr` and `stmtCloseErr` are
the oracles for `rows.Close()`, `txn.Rollback()` and `stmt.Close()`; the rows
oracle is consulted only when a cursor is present, exactly as in Go.  Returns
the updated statement, the returned error, and the ordered operation trace. -/
def Statement.Close (statement : Statement)
    (rowsCloseErr rollbackErr stmtCloseErr : Option GoError) :
    Statement × Option GoError × List CloseAction :=
  let rowsPart : List CloseAction × List GoError :=
    if statement.rows.isSome then
      ([CloseAction.closeRows],
        match rowsCloseErr with
        | some e => [GoError.wrapped "error closing rows" e]
        | none => [])
    else ([], [])
  let errList := rowsPart.2 ++
    (match rollbackErr with
     | some e => [GoError.wrapped "error rolling back transaction" e]
     | none => []) ++
    (match stmtCloseErr with
     | some e => [GoError.wrapped "error closing statement" e]
     | none => [])
  let trace := rowsPart.1 ++ [CloseAction.rollbackTxn, CloseAction.closeStmtHandle] ++
    (if statement.nrtxnPresent then [CloseAction.endTelemetry] else [])
  match errList with
  | [] => (statement, none, trace)
  | e :: es =>
    let combined := es.foldl GoError.wrapE e
    ({ statement with lastErr := some combined }, some combined, trace)

/-- The observable outcome of an execute/query call: the updated statement,
the value returned to the caller, and the exact argument slice handed to the
underlying prepared statement. -/
structure ExecOutcome : Type where
  statement : Statement
  result : Option Nat
  err : Option GoError
  sentArgs : List SqlArg
deriving Repr

/-- `Statement.ExecContext`: concatenate the accumulated named binds (in
insertion order) with the positional arguments, execute through the driver
oracle, record the result and any error, then clear the bind list. -/
def Statement.ExecContext (statement : Statement)
    (driverExec : List SqlArg → Option Nat × Option GoError)
    (args : List GoValue) : ExecOutcome :=
  let binds := statement.binds.map SqlArg.ofNamed ++ args.map SqlArg.positional
  let (res, err) := driverExec binds
  let statement := { statement with result := res }
  let statement :=
    match err with
    | some e => { statement with lastErr := some e }
    | none => statement
  { statement := { statement with binds := [] },
    result := res, err := err, sentArgs := binds }

/-- The observable outcome of a `Query`/`QueryContext` call. -/
structure QueryOutcome : Type where
  statement : Statement
  rows : Option Nat
  err : Option GoError
  sentArgs : List SqlArg
deriving Repr

/-- `Statement.QueryContext`: same bind discipline as `ExecContext` but stores
a row cursor; the bind list is cleared regardless of success. -/
def Statement.QueryContext (statement : Statement)
    (driverQuery : List SqlArg → Option Nat × Option GoError)
    (args : List GoValue) : QueryOutcome :=
  let binds := statement.binds.map SqlArg.ofNamed ++ args.map SqlArg.positional
  let (rs, err) := driverQuery binds
  let statement := { statement with rows := rs }
  let statement :=
    match err with
    | some e => { statement with lastErr := some e }
    | none => statement
  { statement := { statement with binds := [] },
    rows := rs, err := err, sentArgs := binds }

/-- `Statement.QueryRowContext`: builds the same combined argument slice and
returns the driver's row directly, WITHOUT mutating the statement — in
particular the accumulated bind list is not cleared. -/
def Statement.QueryRowContext (statement : Statement)
    (driverQueryRow : List SqlArg → Nat) (args : List GoValue) :
    Statement × Nat × List SqlArg :=
  let binds := statement.binds.map SqlArg.ofNamed ++ args.map SqlArg.positional
  (statement, driverQueryRow binds, binds)

/-! ## The configuration / DSN component (`config.go` and engine adapters) -/

/-- A `*time.Location` value (`time.UTC` or a named zone). -/
inductive Loc : Type where
  | utc : Loc
  | named (name : String) : Loc
deriving DecidableEq, Repr

/-- A `*tls.Config` value, reduced to the only field this code sets. -/
structure TLSConf : Type where
  insecureSkipVerify : Bool := false
deriving DecidableEq, Repr

/-- The `Config` structure, restricted to the fields with observable parsing
or generation behaviour.  `dsnData` and `params` are `Option`-wrapped to keep
Go's nil-map / empty-map distinction; the opaque handles (driver, connector,
contexts, telemetry agent) and the function-valued fields are passed as
explicit arguments where needed instead. -/
structure Config : Type where
  driverType : String := ""
  dsnString : String := ""
  dsnData : Option (List (String × String)) := none
  params : Option (List (String × String)) := none
  loc : Option Loc := none
  tls : Option TLSConf := none
deriving DecidableEq, Repr

/-- `cfg.DSNData[k] = v` (the map is non-nil at every use site in Go). -/
def Config.setData (cfg : Config) (k v : String) : Config :=
  { cfg with dsnData := some (goMapSet (cfg.dsnData.getD []) k v) }

/-- `cfg.Params[k] = v`. -/
def Config.setParam (cfg : Config) (k v : String) : Config :=
  { cfg with params := some (goMapSet (cfg.params.getD []) k v) }

/-- Read `cfg.DSNData[k]`. -/
def Config.getData (cfg : Config) (k : String) : String :=
  goMapGet (cfg.dsnData.getD []) k

/-- `readBool` from `config.go`. -/
def readBool (input : String) : Bool × Bool :=
  if input = "1" ∨ input = "true" ∨ input = "TRUE" ∨ input = "True" then
    (true, true)
  else if input = "0" ∨ input = "false" ∨ input = "FALSE" ∨ input = "False" then
    (false, true)
  else (false, false)

/-! ### Oracle DSN adapter -/

/-- `oracleGenerateDSN`: `user/pass@host`. -/
def oracleGenerateDSN (cfg : Config) : Config :=
  { cfg with dsnString :=
      cfg.getData "user" ++ "/" ++ cfg.getData "pass" ++ "@" ++ cfg.getData "host" }

/-- `oracleParseDSN`: requires `/` and `@` to both occur with the first `/`
before the first `@`; splits on `@`, then splits the pre-`@` part on `/`,
storing `user`, `pass` and `host` from the split pieces. -/
def oracleParseDSN (cfg : Config) : Config × Option GoError :=
  let d := cfg.dsnString.toList
  if '/' ∈ d ∧ '@' ∈ d ∧ goIndex d '/' < goIndex d '@' then
    let p1 := splitChar d '@'
    let p0 := splitChar (p1.getD 0 []) '/'
    let cfg := cfg.setData "user" (String.mk (p0.getD 0 []))
    let cfg := cfg.setData "pass" (String.mk (p0.getD 1 []))
    let cfg := cfg.setData "host" (String.mk (p1.getD 1 []))
    (cfg, none)
  else (cfg, some GoError.invalidOracleDSN)

/-! ### PostgreSQL DSN adapter and the embedded libpq tokenizer -/

/-- `pqGenerateDSN`: fixed four-field prefix then space-separated params. -/
def pqGenerateDSN (cfg : Config) : Config :=
  let s := "user=" ++ cfg.getData "user" ++ " password=" ++ cfg.getData "pass" ++
    " dbname=" ++ cfg.getData "name" ++ " host=" ++ cfg.getData "host"
  let ps := cfg.params.getD []
  let s := if ps.length > 0 then
      ps.foldl (fun acc kv => acc ++ " " ++ kv.1 ++ "=" ++ kv.2) s
    else s
  { cfg with dsnString := s }

/-- Characters admissible in a libpq key (non-whitespace, non-`=`). -/
def pqKeyChar (c : Char) : Bool := !goIsSpace c && c ≠ '='

/-- Unquoted libpq value scan: consume non-whitespace, `\` escapes the next
character (even whitespace); `none` when a trailing backslash has no
follower.  Returns the value and the unconsumed remainder. -/
def scanUnquoted : List Char → Option (List Char × List Char)
  | [] => some ([], [])
  | c :: cs =>
    if goIsSpace c then some ([], c :: cs)
    else if c = '\\' then
      match cs with
      | [] => none
      | d :: ds =>
        match scanUnquoted ds with
        | some (v, r) => some (d :: v, r)
        | none => none
    else
      match scanUnquoted cs with
      | some (v, r) => some (c :: v, r)
      | none => none

/-- Quoted libpq value scan (after the opening quote): until an unescaped
closing quote, `\` escaping the next character; `none` when the closing quote
is never found. -/
def scanQuoted : List Char → Option (List Char × List Char)
  | [] => none
  | c :: cs =>
    if c = quoteChar then some ([], cs)
    else if c = '\\' then
      match cs with
      | [] => none
      | d :: ds =>
        match scanQuoted ds with
        | some (v, r) => some (d :: v, r)
        | none => none
    else
      match scanQuoted cs with
      | some (v, r) => some (c :: v, r)
      | none => none

/-- The outcome of one iteration of the `pqParseDSN` loop: either the loop
finishes with a result (normal end of input, the empty-value break, or an
error return) or it continues with an updated mapping on the remaining
input. -/
inductive PqIterResult : Type where
  | stop (result : List (String × String) × Option GoError) : PqIterResult
  | again (acc : List (String × String)) (rem : List Char) : PqIterResult

/-- One iteration of the `pqParseDSN` loop: skip whitespace (end of input
stops), scan a key, require `=` after optional whitespace (else the
missing-`=` error with an empty result mapping), skip whitespace (end of input
stores an empty value and stops), then scan a quoted or unquoted value and
store the pair. -/
def pqIter (acc : List (String × String)) (l : List Char) : PqIterResult :=
  let l1 := l.dropWhile goIsSpace
  match l1 with
  | [] => .stop (acc, none)
  | _ :: _ =>
    let keyS := String.mk (l1.takeWhile pqKeyChar)
    let rest := l1.dropWhile pqKeyChar
    let afterEq : Option (List Char) :=
      match rest with
      | [] => none
      | c :: rs =>
        if c = '=' then some rs
        else
          match (c :: rs).dropWhile goIsSpace with
          | '=' :: rs2 => some rs2
          | _ => none
    match afterEq with
    | none => .stop ([], some (GoError.missingEquals keyS))
    | some ae =>
      match ae.dropWhile goIsSpace with
      | [] => .stop (goMapSet acc keyS "", none)
      | c :: vs =>
        if c = quoteChar then
          match scanQuoted vs with
          | none => .stop ([], some GoError.unterminatedQuote)
          | some (val, rem) => .again (goMapSet acc keyS (String.mk val)) rem
        else
          match scanUnquoted (c :: vs) with
          | none => .stop ([], some GoError.missingBackslashChar)
          | some (val, rem) => .again (goMapSet acc keyS (String.mk val)) rem

/-- The `pqParseDSN` loop, fuelled (each iteration consumes at least one
character, so `length + 1` fuel never runs out). -/
def pqParseLoop (fuel : Nat) (acc : List (String × String)) (l : List Char) :
    List (String × String) × Option GoError :=
  match fuel with
  | 0 => (acc, some GoError.outOfFuel)
  | fuel + 1 =>
    match pqIter acc l with
    | .stop r => r
    | .again acc2 rem => pqParseLoop fuel acc2 rem

/-- `pqParseDSN`: the embedded libpq option-string tokenizer.  Mirrors Go's
`(pqvalues, error)` return pair: the error sites return an empty mapping. -/
def pqParseDSN (dsn : String) : List (String × String) × Option GoError :=
  pqParseLoop (dsn.toList.length + 1) [] dsn.toList

/-- `postgresParseDSN`: tokenize, copy the four fixed keys into `dsnData` and
every other key into `params`. -/
def postgresParseDSN (cfg : Config) : Config × Option GoError :=
  match pqParseDSN cfg.dsnString with
  | (_, some e) => (cfg, some e)
  | (parsed, none) =>
    let cfg := cfg.setData "host" (goMapGet parsed "host")
    let cfg := cfg.setData "name" (goMapGet parsed "dbname")
    let cfg := cfg.setData "pass" (goMapGet parsed "password")
    let cfg := cfg.setData "user" (goMapGet parsed "user")
    let cfg := parsed.foldl
      (fun cfg kv =>
        if kv.1 ≠ "host" ∧ kv.1 ≠ "dbname" ∧ kv.1 ≠ "password" ∧ kv.1 ≠ "user"
        then cfg.setParam kv.1 kv.2 else cfg) cfg
    (cfg, none)

/-! ### MySQL DSN adapter -/

/-- `mysqlGenerateDSN`: default the port to `3306`, render
`user:pass@tcp(host:port)/name`, append `?k=v&` per parameter, then
`strings.Trim(dsn, "&")` (which removes leading as well as trailing `&`). -/
def mysqlGenerateDSN (cfg : Config) : Config :=
  let data := cfg.dsnData.getD []
  let data := if goMapHas data "port" then data else goMapSet data "port" "3306"
  let s := goMapGet data "user" ++ ":" ++ goMapGet data "pass" ++ "@tcp(" ++
    goMapGet data "host" ++ ":" ++ goMapGet data "port" ++ ")/" ++
    goMapGet data "name"
  let ps := cfg.params.getD []
  let s := if ps.length > 0 then
      ps.foldl (fun acc kv => acc ++ (kv.1 ++ "=" ++ kv.2 ++ "&")) (s ++ "?")
    else s
  { cfg with dsnData := some data, dsnString := goTrimAmp s }

/-- The fields `mysqlParseDSN` copies out of the external
`mysql.ParseDSN` result. -/
structure ExtMysqlConfig : Type where
  addr : String
  dbName : String
  passwd : String
  user : String
  params : List (String × String)
deriving Repr

/-- `mysqlParseDSN`: delegate to the external MySQL DSN grammar parser, then
copy `Addr`, `DBName`, `Passwd`, `User` into `dsnData` and replace `params`
wholesale. -/
def mysqlParseDSN (ext : String → Except GoError ExtMysqlConfig)
    (cfg : Config) : Config × Option GoError :=
  match ext cfg.dsnString with
  | .error e => (cfg, some e)
  | .ok parsed =>
    let cfg := cfg.setData "host" parsed.addr
    let cfg := cfg.setData "name" parsed.dbName
    let cfg := cfg.setData "pass" parsed.passwd
    let cfg := cfg.setData "user" parsed.user
    ({ cfg with params := some parsed.params }, none)

/-! ### Snowflake DSN adapter -/

/-- The fields `snowflakeParseDSN` copies out of the external
`gosnowflake.ParseDSN` result (parameter values already dereferenced). -/
structure ExtSnowflakeConfig : Type where
  user : String
  password : String
  account : String
  database : String
  schemaName : String
  warehouse : String
  role : String
  params : List (String × String)
deriving Repr

/-- `snowflakeGenerateDSN`. -/
def snowflakeGenerateDSN (cfg : Config) : Config :=
  let s := cfg.getData "user" ++ ":" ++ cfg.getData "pass" ++ "@" ++
    cfg.getData "account" ++ "/" ++ cfg.getData "db" ++ "/" ++
    cfg.getData "schema" ++ "?warehouse=" ++ cfg.getData "warehouse" ++
    "&role=" ++ cfg.getData "role"
  let ps := cfg.params.getD []
  let s := if ps.length > 0 then
      ps.foldl (fun acc kv => acc ++ "&" ++ kv.1 ++ "=" ++ kv.2) s
    else s
  { cfg with dsnString := s }

/-- `snowflakeParseDSN`: delegate to the external parser, copy the seven named
fields into `dsnData` and merge its parameters into `params`. -/
def snowflakeParseDSN (ext : String → Except GoError ExtSnowflakeConfig)
    (cfg : Config) : Config × Option GoError :=
  match ext cfg.dsnString with
  | .error e => (cfg, some e)
  | .ok parsed =>
    let cfg := cfg.setData "user" parsed.user
    let cfg := cfg.setData "pass" parsed.password
    let cfg := cfg.setData "account" parsed.account
    let cfg := cfg.setData "db" parsed.database
    let cfg := cfg.setData "schema" parsed.schemaName
    let cfg := cfg.setData "warehouse" parsed.warehouse
    let cfg := cfg.setData "role" parsed.role
    let cfg := parsed.params.foldl (fun cfg kv => cfg.setParam kv.1 kv.2) cfg
    (cfg, none)

/-! ### Generic fallback parse and `Config.ParseDSN` -/

/-- The external collaborators of `Config.ParseDSN`: the engine driver
parsers, `time.LoadLocation` (returning both a location and an error, as in
Go), the process-wide TLS-configuration registry, and the compiled
`dsnPattern` regular-expression match — `dsnMatches s` stands for
`FindStringSubmatch(s)` zipped with `SubexpNames()` (empty when the pattern
does not match). -/
structure Externals : Type where
  mysqlParse : String → Except GoError ExtMysqlConfig
  snowflakeParse : String → Except GoError ExtSnowflakeConfig
  loadLocation : String → Option Loc × Option GoError
  tlsRegister : List (String × TLSConf)
  dsnMatches : String → List (String × String)

/-- The running state of the generic fallback's match loop: the mutated
configuration, the `err` variable, and whether an early `return` fired. -/
structure ParamStep : Type where
  cfg : Config
  err : Option GoError
  abort : Bool

/-- One `&`-separated entry of the `params` capture: split once on `=` (a
non-splitting entry is skipped); `loc` resolves a location, returning its
error immediately; `tls` interprets booleans, `skip-verify`, then the
registry, recording `ErrInvalidTLSConfig` on an unknown value without
aborting; every other key is stored verbatim. -/
def processParam (E : Externals) (cfg : Config) (err : Option GoError)
    (v : String) : ParamStep :=
  match splitN2 v with
  | [k, value] =>
    if k = "loc" then
      let r := E.loadLocation value
      let cfg := { cfg with loc := r.1 }
      match r.2 with
      | some e => ⟨cfg, some e, true⟩
      | none => ⟨cfg, none, false⟩
    else if k = "tls" then
      let b := readBool value
      if b.2 then
        if b.1 then ⟨{ cfg with tls := some {} }, err, false⟩
        else ⟨cfg, err, false⟩
      else if goToLower value = "skip-verify" then
        ⟨{ cfg with tls := some { insecureSkipVerify := true } }, err, false⟩
      else
        match goMapLookup E.tlsRegister value with
        | some t => ⟨{ cfg with tls := some t }, err, false⟩
        | none => ⟨cfg, some GoError.invalidTLSConfig, false⟩
    else ⟨cfg.setParam k value, err, false⟩
  | _ => ⟨cfg, err, false⟩

/-- Process the `&`-separated entries of a `params` capture in order,
propagating an early return. -/
def processParams (E : Externals) :
    Config → Option GoError → List String → ParamStep
  | cfg, err, [] => ⟨cfg, err, false⟩
  | cfg, err, v :: vs =>
    let r := processParam E cfg err v
    if r.abort then r else processParams E r.cfg r.err vs

/-- One `(SubexpName, match)` pair of the generic fallback's loop body. -/
def processMatch (E : Externals) (cfg : Config) (err : Option GoError)
    (nm : String × String) : ParamStep :=
  if nm.1 = "user" then ⟨cfg.setData "user" nm.2, err, false⟩
  else if nm.1 = "pass" ∨ nm.1 = "passwd" ∨ nm.1 = "password" then
    ⟨cfg.setData "pass" nm.2, err, false⟩
  else if nm.1 = "net" then ⟨cfg.setData "net" nm.2, err, false⟩
  else if nm.1 = "addr" then ⟨cfg.setData "addr" nm.2, err, false⟩
  else if nm.1 = "name" ∨ nm.1 = "dbname" then ⟨cfg.setData "name" nm.2, err, false⟩
  else if nm.1 = "params" then processParams E cfg err (goSplit nm.2 '&')
  else ⟨cfg, err, false⟩

/-- The generic fallback's loop over all submatches. -/
def processMatches (E : Externals) :
    Config → Option GoError → List (String × String) → ParamStep
  | cfg, err, [] => ⟨cfg, err, false⟩
  | cfg, err, nm :: nms =>
    let r := processMatch E cfg err nm
    if r.abort then r else processMatches E r.cfg r.err nms

/-- The generic best-effort parse of `Config.ParseDSN` (the path taken when no
custom parser is set and `driverType` matches no engine): run the `dsnPattern`
match loop, then default `loc` to UTC when still absent, returning the
retained `err` value. -/
def genericParseDSN (E : Externals) (cfg : Config) : Config × Option GoError :=
  let r := processMatches E cfg none (E.dsnMatches cfg.dsnString)
  if r.abort then (r.cfg, r.err)
  else
    let cfg := if r.cfg.loc = none then { r.cfg with loc := some Loc.utc }
      else r.cfg
    (cfg, r.err)

/-- The map-initialization prologue of `Config.ParseDSN`: a nil `dsnData` or
`params` becomes an empty mapping, a non-nil one is kept (written with `getD`,
which coincides with Go's two nil checks). -/
def Config.initMaps (cfg : Config) : Config :=
  { cfg with dsnData := some (cfg.dsnData.getD []),
             params := some (cfg.params.getD []) }

/-- `Config.ParseDSN`.  `custom` is the optional `cfg.DSNParser` field (passed
separately because a structure field cannot mention its own structure
negatively).  Mirrors Go's in-place mutation by returning the updated
configuration next to the error.  The emptiness and driver-type tests read the
fields `initMaps` does not touch, so they are taken from the original
configuration. -/
def Config.ParseDSN (cfg : Config) (E : Externals)
    (custom : Option (Config → Config × Option GoError)) :
    Config × Option GoError :=
  let cfg1 := cfg.initMaps
  if cfg.dsnString = "" then (cfg1, some GoError.dsnStringEmpty)
  else
    match custom with
    | some p => p cfg1
    | none =>
      if cfg.driverType = "mysql" then mysqlParseDSN E.mysqlParse cfg1
      else if cfg.driverType = "oracle" then oracleParseDSN cfg1
      else if cfg.driverType = "postgres" then postgresParseDSN cfg1
      else if cfg.driverType = "snowflake" then snowflakeParseDSN E.snowflakeParse cfg1
      else genericParseDSN E cfg1

/-- `Config.generateDSN`.  `dsnFn` is the optional `cfg.DSNFn` field.  Returns
the mutated configuration and Go's boolean result. -/
def Config.generateDSN (cfg : Config) (dsnFn : Option (Config → String)) :
    Config × Bool :=
  let cfg := if cfg.dsnData = none then { cfg with dsnData := some [] } else cfg
  match dsnFn with
  | some f =>
    let s := f cfg
    ({ cfg with dsnString := s }, s = "")
  | none =>
    if cfg.driverType = "mysql" then (mysqlGenerateDSN cfg, true)
    else if cfg.driverType = "oracle" then (oracleGenerateDSN cfg, true)
    else if cfg.driverType = "postgres" then (pqGenerateDSN cfg, true)
    else if cfg.driverType = "snowflake" then (snowflakeGenerateDSN cfg, true)
    else (cfg, false)

/-- `Config.DSN`: generate only when `dsnString` is empty, then return it
(paired with the mutated configuration). -/
def Config.DSN (cfg : Config) (dsnFn : Option (Config → String)) :
    String × Config :=
  if cfg.dsnString = "" then
    let r := cfg.generateDSN dsnFn
    (r.1.dsnString, r.1)
  else (cfg.dsnString, cfg)

/-! ## The instrumentation adapter (`newrelic.go`)

The query classifier's regular expressions are embedded as direct matchers
with Go's leftmost-first (lazy `.*?` / greedy alternation with backtracking)
semantics:

* `cCommentRegex` `(?is)/\*.*?\*/` and `lineCommentRegex` `(?im)(?:--|#).*?$`
  as scan-and-delete passes (newlines are kept by the `$` of multiline mode);
* `sqlPrefixRegex` `^[\s;]*` as a `dropWhile`;
* `firstWordRegex` `^\w+` as a `takeWhile` over `[0-9A-Za-z_]`;
* `tablePattern` `(\s+T|\s*[\[({]\s*T\s*[\])}])` with
  `T = [^)(\]\[\}\{\s,;]+` as `matchTableAt` (first alternative tried first,
  greedy runs);
* the `select`/`delete` (`^.*?\sfrom` + table) and `insert` (`^.*?\sinto?` +
  table) patterns as left-to-right scans for the earliest position whose
  continuation matches (`scanFrom`, `scanInto`; the optional `o` is tried
  consumed first);
* `updateRegex`
  `(?is)^update(?:\s+(?:low_priority|ignore|or|rollback|abort|replace|fail|only))*`
  + table as the backtracking `updateStar` (greedy star: one more modifier
  iteration is preferred, alternatives in source order, the star exits to the
  table pattern on failure);
* `extractTableRegex` ``[\s`"'\(\)\{\}\[\]]*`` replaced by `""` everywhere as
  a character filter. -/

/-- Go regexp `\w`: `[0-9A-Za-z_]`. -/
def wordChar (c : Char) : Bool :=
  ('a' ≤ c && c ≤ 'z') || ('A' ≤ c && c ≤ 'Z') || ('0' ≤ c && c ≤ '9') ||
    c = '_'

/-- `firstWordRegex.FindString`: the leading `\w+` run (empty when none). -/
def firstWord (s : String) : String := String.mk (s.toList.takeWhile wordChar)

/-- Find the first `*/` and return the remainder after it. -/
def findCCClose : List Char → Option (List Char)
  | '*' :: '/' :: rest => some rest
  | _ :: rest => findCCClose rest
  | [] => none

/-- Remove every (lazily matched, non-overlapping) `/* ... */` block; an
unterminated `/*` does not match and is kept. -/
def removeCComments (fuel : Nat) (l : List Char) : List Char :=
  match fuel with
  | 0 => l
  | f + 1 =>
    match l with
    | '/' :: '*' :: rest =>
      match findCCClose rest with
      | some rest2 => removeCComments f rest2
      | none => '/' :: '*' :: rest
    | c :: rest => c :: removeCComments f rest
    | [] => []

/-- Remove every `--`/`#` line comment up to (excluding) the newline. -/
def removeLineComments (fuel : Nat) (l : List Char) : List Char :=
  match fuel with
  | 0 => l
  | f + 1 =>
    match l with
    | '-' :: '-' :: rest =>
      removeLineComments f (rest.dropWhile (fun c => c ≠ '\n'))
    | '#' :: rest => removeLineComments f (rest.dropWhile (fun c => c ≠ '\n'))
    | c :: rest => c :: removeLineComments f rest
    | [] => []

/-- `sqlPrefixRegex` deletion: drop the leading run of `[\s;]`. -/
def stripLeadingWsSemis (l : List Char) : List Char :=
  l.dropWhile (fun c => reSpace c || c = ';')

/-- The comment/prefix-cleaning pipeline of the query-parsing callback. -/
def cleanQuery (q : String) : String :=
  let l1 := removeCComments (q.toList.length + 1) q.toList
  let l2 := removeLineComments (l1.length + 1) l1
  String.mk (stripLeadingWsSemis l2)

/-- `basicTable` character class: `[^)(\]\[\}\{\s,;]`. -/
def basicChar (c : Char) : Bool :=
  !reSpace c && c ≠ ')' && c ≠ '(' && c ≠ ']' && c ≠ '[' && c ≠ '}' &&
    c ≠ '{' && c ≠ ',' && c ≠ ';'

/-- Opening brackets of `enclosedTable`. -/
def openBracket (c : Char) : Bool := c = '[' || c = '(' || c = '{'

/-- Closing brackets of `enclosedTable` (any one closes any opener). -/
def closeBracket (c : Char) : Bool := c = ']' || c = ')' || c = '}'

/-- Match `tablePattern` at the start of `l`, returning the captured group
text: first the `\s+ basicTable` alternative, then `\s* enclosedTable`. -/
def matchTableAt (l : List Char) : Option (List Char) :=
  let sp := l.takeWhile reSpace
  let rest := l.dropWhile reSpace
  let alt1 : Option (List Char) :=
    if sp.isEmpty then none
    else
      let t := rest.takeWhile basicChar
      if t.isEmpty then none else some (sp ++ t)
  match alt1 with
  | some cap => some cap
  | none =>
    match rest with
    | o :: rs =>
      if openBracket o then
        let sp2 := rs.takeWhile reSpace
        let rest2 := rs.dropWhile reSpace
        let t := rest2.takeWhile basicChar
        if t.isEmpty then none
        else
          let rest3 := rest2.drop t.length
          let sp3 := rest3.takeWhile reSpace
          match rest3.dropWhile reSpace with
          | c :: _ =>
            if closeBracket c then
              some (sp ++ (o :: (sp2 ++ t ++ sp3 ++ [c])))
            else none
          | [] => none
      else none
    | [] => none

/-- Case-insensitive prefix test against a lowercase needle. -/
def startsWithCI (w : String) (l : List Char) : Bool :=
  (l.take w.length).map charLower = w.toList

/-- `^.*?\sfrom` + `tablePattern`: scan left-to-right for the earliest
whitespace-`from` whose continuation matches the table pattern. -/
def scanFrom : List Char → Option (List Char)
  | [] => none
  | c :: cs =>
    match (if reSpace c && startsWithCI "from" cs then
             matchTableAt (cs.drop 4)
           else none) with
    | some cap => some cap
    | none => scanFrom cs

/-- `^.*?\sinto?` + `tablePattern`: like `scanFrom` for `int` with an
optional `o` (the greedy `o?` tries the consumed form first). -/
def scanInto : List Char → Option (List Char)
  | [] => none
  | c :: cs =>
    match (if reSpace c && startsWithCI "int" cs then
             let after3 := cs.drop 3
             match after3 with
             | o :: rest =>
               if charLower o = 'o' then
                 match matchTableAt rest with
                 | some cap => some cap
                 | none => matchTableAt after3
               else matchTableAt after3
             | [] => matchTableAt after3
           else none) with
    | some cap => some cap
    | none => scanInto cs

/-- The update modifiers, in the alternation order of `updateRegex`. -/
def updateModifiers : List String :=
  ["low_priority", "ignore", "or", "rollback", "abort", "replace", "fail",
   "only"]

/-- The greedy `(?:\s+(?:modifiers))*` + `tablePattern` tail of `updateRegex`,
with full backtracking: prefer one more modifier iteration (alternatives in
order), fall back to matching the table pattern here. -/
def updateStar (fuel : Nat) (l : List Char) : Option (List Char) :=
  match fuel with
  | 0 => none
  | f + 1 =>
    let sp := l.takeWhile reSpace
    let rest := l.dropWhile reSpace
    let viaMods : Option (List Char) :=
      if sp.isEmpty then none
      else
        updateModifiers.foldl (fun acc m =>
          match acc with
          | some cap => some cap
          | none =>
            if startsWithCI m rest then updateStar f (rest.drop m.length)
            else none) none
    match viaMods with
    | some cap => some cap
    | none => matchTableAt l

/-- `updateRegex`: anchored case-insensitive `update`, then the modifier
star and the table pattern. -/
def matchUpdate (qry : String) : Option (List Char) :=
  if startsWithCI "update" qry.toList then
    updateStar (qry.toList.length + 1) (qry.toList.drop 6)
  else none

/-- Which table-extraction pattern an operation uses. -/
inductive PatternKind : Type where
  | fromPat : PatternKind
  | intoPat : PatternKind
  | updatePat : PatternKind
deriving DecidableEq, Repr

/-- The fixed `sqlOperations` table (a Go map; embedded as a list, lookup by
key). -/
def sqlOperations : List (String × Option PatternKind) :=
  [("select", some .fromPat), ("delete", some .fromPat),
   ("insert", some .intoPat), ("update", some .updatePat),
   ("call", none), ("create", none), ("drop", none), ("show", none),
   ("set", none), ("exec", none), ("execute", none), ("alter", none),
   ("commit", none), ("rollback", none)]

/-- Run an operation's table pattern on the cleaned query, returning the
captured table token (`m[1]`) when the pattern matches. -/
def runPattern : PatternKind → String → Option String
  | .fromPat, qry => (scanFrom qry.toList).map String.mk
  | .intoPat, qry => (scanInto qry.toList).map String.mk
  | .updatePat, qry => (matchUpdate qry).map String.mk

/-- The `extractTableRegex` character class: whitespace, backtick, double and
single quote, parentheses, braces and brackets. -/
def isStripChar (c : Char) : Bool :=
  reSpace c || c = Char.ofNat 96 || c = dquoteChar || c = quoteChar ||
    c = '(' || c = ')' || c = '{' || c = '}' || c = '[' || c = ']'

/-- `extractTable`: delete every stripped-class character anywhere in the
token, then, only when the first `.` of the cleaned token sits at an index
greater than zero, keep the part after that first `.`. -/
def extractTable (s : String) : String :=
  let l := s.toList.filter (fun c => !isStripChar c)
  let idx := goIndex l '.'
  if idx > 0 then String.mk (l.drop (idx.toNat + 1)) else String.mk l

/-- The observable fields of a `nr.DatastoreSegment`. -/
structure Segment : Type where
  databaseName : String := ""
  host : String := ""
  parameterizedQuery : String := ""
  operation : Option String := none
  collection : Option String := none
deriving DecidableEq, Repr

/-- The query-parsing callback built by `parseQueryFn`: clean the query, tag
the segment with the database name/host and the cleaned text, classify by the
lower-cased first word through `sqlOperations`, and extract the table when the
operation has a pattern; an unrecognized verb writes neither operation nor
collection. -/
def parseQueryFn (databaseName dsnHost : String) (segment : Segment)
    (query : String) : Segment :=
  let qry := cleanQuery query
  let segment :=
    { segment with
      databaseName := databaseName, host := dsnHost,
      parameterizedQuery := qry }
  let op := goToLower (firstWord qry)
  match goMapLookup sqlOperations op with
  | none => segment
  | some pat =>
    let segment := { segment with operation := some op }
    match pat with
    | none => segment
    | some pk =>
      match runPattern pk qry with
      | some cap => { segment with collection := some (extractTable cap) }
      | none => segment

/-- Inert external collaborators used to instantiate concrete configurations:
failing engine parsers, a trivially succeeding location resolver, an empty TLS
registry and a never-matching `dsnPattern`. -/
def dummyExternals : Externals where
  mysqlParse := fun _ => .error (.external "unused")
  snowflakeParse := fun _ => .error (.external "unused")
  loadLocation := fun s => (some (.named s), none)
  tlsRegister := []
  dsnMatches := fun _ => []

/-! ## Helper lemmas -/

theorem processParam_abort_isSome (E : Externals) (cfg : Config)
    (err : Option GoError) (v : String) :
    (processParam E cfg err v).abort = true →
      (processParam E cfg err v).err.isSome = true := by
  unfold processParam
  repeat' (split <;> try simp)

theorem processParams_abort_isSome (E : Externals) :
    ∀ (l : List String) (cfg : Config) (err : Option GoError),
      (processParams E cfg err l).abort = true →
        (processParams E cfg err l).err.isSome = true := by
  intro l
  induction l with
  | nil => intro cfg err h; simp [processParams] at h
  | cons v vs ih =>
    intro cfg err
    simp only [processParams]
    split
    · next habort => exact fun _ => processParam_abort_isSome E cfg err v habort
    · exact ih _ _

theorem processMatch_abort_isSome (E : Externals) (cfg : Config)
    (err : Option GoError) (nm : String × String) :
    (processMatch E cfg err nm).abort = true →
      (processMatch E cfg err nm).err.isSome = true := by
  unfold processMatch
  repeat' split
  all_goals first
    | exact processParams_abort_isSome E _ _ _
    | simp

theorem processMatches_abort_isSome (E : Externals) :
    ∀ (l : List (String × String)) (cfg : Config) (err : Option GoError),
      (processMatches E cfg err l).abort = true →
        (processMatches E cfg err l).err.isSome = true := by
  intro l
  induction l with
  | nil => intro cfg err h; simp [processMatches] at h
  | cons nm nms ih =>
    intro cfg err
    simp only [processMatches]
    split
    · next habort => exact fun _ => processMatch_abort_isSome E cfg err nm habort
    · exact ih _ _

theorem genericParseDSN_loc_isSome (E : Externals) (cfg : Config) :
    (genericParseDSN E cfg).2 = none → (genericParseDSN E cfg).1.loc ≠ none := by
  unfold genericParseDSN
  dsimp only
  split
  · next habort =>
    intro h
    have := processMatches_abort_isSome E (E.dsnMatches cfg.dsnString) cfg none habort
    have herr : (processMatches E cfg none (E.dsnMatches cfg.dsnString)).err = none := h
    rw [herr] at this
    simp at this
  · intro _
    split
    · exact fun hc => Option.noConfusion hc
    · next hloc => exact hloc

theorem goMapGet_set_same (m : List (String × String)) (k v : String) :
    goMapGet (goMapSet m k v) k = v := by
  induction m with
  | nil => simp [goMapSet, goMapGet]
  | cons kv t ih =>
    obtain ⟨a, b⟩ := kv
    by_cases h : a = k
    · simp [goMapSet, goMapGet, h]
    · simp [goMapSet, goMapGet, h, ih]

theorem goMapGet_set_other (m : List (String × String)) (k k' v : String)
    (h : k' ≠ k) : goMapGet (goMapSet m k v) k' = goMapGet m k' := by
  have hkk : k ≠ k' := fun he => h he.symm
  induction m with
  | nil => simp [goMapSet, goMapGet, hkk]
  | cons kv t ih =>
    obtain ⟨a, b⟩ := kv
    by_cases ha : a = k
    · subst ha; simp [goMapSet, goMapGet, hkk]
    · simp [goMapSet, goMapGet, ha, ih]

theorem getData_setData_same (cfg : Config) (k v : String) :
    (cfg.setData k v).getData k = v := by
  simp [Config.setData, Config.getData, goMapGet_set_same]

theorem getData_setData_other (cfg : Config) (k k' v : String) (h : k' ≠ k) :
    (cfg.setData k v).getData k' = cfg.getData k' := by
  simp [Config.setData, Config.getData, goMapGet_set_other _ _ _ _ h]

theorem splitChar_ne_nil (l : List Char) (c : Char) : splitChar l c ≠ [] := by
  induction l with
  | nil => simp [splitChar]
  | cons a t ih =>
    by_cases h : a = c
    · simp [splitChar, h]
    · simp only [splitChar, if_neg h]
      cases ht : splitChar t c <;> simp

theorem neChar_self (c : Char) : neChar c c = false := by simp [neChar]

theorem neChar_of_ne (c x : Char) (h : x ≠ c) : neChar c x = true := by
  simp [neChar, h]

theorem splitChar_getD_zero (l : List Char) (c : Char) :
    (splitChar l c).getD 0 [] = l.takeWhile (neChar c) := by
  induction l with
  | nil => simp [splitChar]
  | cons a t ih =>
    by_cases h : a = c
    · subst h
      simp only [splitChar, if_pos rfl, List.takeWhile_cons, neChar_self]
      simp
    · simp only [splitChar, if_neg h]
      cases ht : splitChar t c with
      | nil => exact absurd ht (splitChar_ne_nil t c)
      | cons h0 tl =>
        rw [ht] at ih
        simp only [List.getD_cons_zero] at ih ⊢
        rw [List.takeWhile_cons, neChar_of_ne c a h]
        simp [ih]

theorem splitChar_getD_one (l : List Char) (c : Char) (h : c ∈ l) :
    (splitChar l c).getD 1 [] =
      ((l.dropWhile (neChar c)).drop 1).takeWhile (neChar c) := by
  induction l with
  | nil => cases h
  | cons a t ih =>
    by_cases hac : a = c
    · subst hac
      simp only [splitChar, if_pos rfl, List.dropWhile_cons, neChar_self,
        Bool.false_eq_true, if_false, List.drop_succ_cons, List.drop_zero,
        List.getD_cons_succ]
      exact splitChar_getD_zero t a
    · have hct : c ∈ t := by
        rcases List.mem_cons.mp h with h1 | h1
        · exact absurd h1.symm hac
        · exact h1
      simp only [splitChar, if_neg hac]
      cases hs : splitChar t c with
      | nil => exact absurd hs (splitChar_ne_nil t c)
      | cons h0 tl =>
        have ihh := ih hct
        rw [hs] at ihh
        simp only [List.getD_cons_succ] at ihh ⊢
        rw [List.dropWhile_cons, neChar_of_ne c a hac]
        simpa using ihh

theorem mem_takeWhile_of_goIndex_lt (a b : Char) (l : List Char)
    (ha : a ∈ l) (hb : b ∈ l) (hlt : goIndex l a < goIndex l b) :
    a ∈ l.takeWhile (neChar b) := by
  induction l with
  | nil => cases ha
  | cons x t ih =>
    by_cases hxb : x = b
    · subst hxb
      exfalso
      have h1 : goIndex (x :: t) x = 0 := by
        unfold goIndex
        rw [if_pos hb, List.takeWhile_cons, neChar_self]
        simp
      have h2 : 0 ≤ goIndex (x :: t) a := by
        unfold goIndex
        rw [if_pos ha]
        exact Int.natCast_nonneg _
      omega
    · by_cases hxa : x = a
      · subst hxa
        rw [List.takeWhile_cons, neChar_of_ne b x hxb]
        simp
      · have ha' : a ∈ t := by
          rcases List.mem_cons.mp ha with h1 | h1
          · exact absurd h1.symm hxa
          · exact h1
        have hb' : b ∈ t := by
          rcases List.mem_cons.mp hb with h1 | h1
          · exact absurd h1.symm hxb
          · exact h1
        have hia : goIndex (x :: t) a = goIndex t a + 1 := by
          unfold goIndex
          rw [if_pos ha, if_pos ha', List.takeWhile_cons, neChar_of_ne a x hxa]
          simp only [if_true, List.length_cons]
          omega
        have hib : goIndex (x :: t) b = goIndex t b + 1 := by
          unfold goIndex
          rw [if_pos hb, if_pos hb', List.takeWhile_cons, neChar_of_ne b x hxb]
          simp only [if_true, List.length_cons]
          omega
        have hlt' : goIndex t a < goIndex t b := by omega
        rw [List.takeWhile_cons, neChar_of_ne b x hxb]
        simp only [if_true]
        exact List.mem_cons_of_mem x (ih ha' hb' hlt')

/-- C1: `Statement.Commit` always returns an absent (nil) error, discarding
the underlying transaction commit's own error, and leaves the statement
unchanged, so a caller can never detect a failed commit from its return
value. -/
theorem C1_commit_always_returns_nil (st : Statement)
    (txnCommitErr : Option GoError) :
    (st.Commit txnCommitErr).2 = none ∧ (st.Commit txnCommitErr).1 = st :=
  ⟨rfl, rfl⟩

/-- C2 counterexample: on the engine-specific (oracle) dispatch path,
`ParseDSN` returns successfully with the `loc` field still absent, so "the
`Loc` field is non-absent after every successful `ParseDSN`" is false on the
code: the UTC default is applied only on the generic fallback path, which the
engine parsers' early returns never reach. -/
theorem C2_counterexample :
    (Config.ParseDSN
        { driverType := "oracle", dsnString := "username/password@hostname" }
        dummyExternals none).2 = none ∧
    (Config.ParseDSN
        { driverType := "oracle", dsnString := "username/password@hostname" }
        dummyExternals none).1.loc = none := by decide

/-- C2 amended: only on the generic fallback path (no custom parser,
`driverType` none of the four engines) does a `ParseDSN` that returns no error
leave `loc` non-absent (defaulted to UTC when the parse set none); the early
returns of the custom-parser and engine dispatch paths skip the default. -/
theorem C2_loc_default_on_generic_fallback (E : Externals) (cfg : Config)
    (h1 : cfg.driverType ≠ "mysql") (h2 : cfg.driverType ≠ "oracle")
    (h3 : cfg.driverType ≠ "postgres") (h4 : cfg.driverType ≠ "snowflake")
    (hok : (cfg.ParseDSN E none).2 = none) :
    (cfg.ParseDSN E none).1.loc ≠ none := by
  unfold Config.ParseDSN at hok ⊢
  by_cases hds : cfg.dsnString = ""
  · rw [if_pos hds] at hok
    exact absurd hok (by simp)
  · rw [if_neg hds] at hok ⊢
    simp only [if_neg h1, if_neg h2, if_neg h3, if_neg h4] at hok ⊢
    exact genericParseDSN_loc_isSome E cfg.initMaps hok

/-- C2 witness: a concrete fallback-path configuration parses successfully and
ends with a non-absent `loc`. -/
theorem C2_loc_default_on_generic_fallback_witness :
    (Config.ParseDSN { driverType := "sqlite", dsnString := "x/y" }
        dummyExternals none).1.loc ≠ none :=
  C2_loc_default_on_generic_fallback dummyExternals
    { driverType := "sqlite", dsnString := "x/y" }
    (by decide) (by decide) (by decide) (by decide) (by decide)

/-- C3: `Statement.Close` closes the cursor exactly when one is present, then
rolls back the held transaction unconditionally (its trace always contains the
rollback, whatever the oracles report — in particular after a successful
`Commit`, whose `ErrTxDone`-style failure is just one value of the rollback
oracle), then closes the prepared-statement handle; the returned error is
absent exactly when every performed step succeeded, and every failing step's
wrapped error is chained into the one combined error that is both recorded as
the statement's last error and returned. -/
theorem C3_close_rollback_and_error_chaining (st : Statement)
    (rcErr rbErr scErr : Option GoError) :
    (st.Close rcErr rbErr scErr).2.2 =
        (if st.rows.isSome then [CloseAction.closeRows] else []) ++
          [CloseAction.rollbackTxn, CloseAction.closeStmtHandle] ++
          (if st.nrtxnPresent then [CloseAction.endTelemetry] else [])
    ∧ CloseAction.rollbackTxn ∈ (st.Close rcErr rbErr scErr).2.2
    ∧ ((st.Close rcErr rbErr scErr).2.1 = none ↔
        ((st.rows.isSome = true → rcErr = none) ∧ rbErr = none ∧ scErr = none))
    ∧ (∀ e, rbErr = some e →
        ∃ c, (st.Close rcErr rbErr scErr).2.1 = some c ∧
          (st.Close rcErr rbErr scErr).1.lastErr = some c ∧
          errContains (GoError.wrapped "error rolling back transaction" e) c = true)
    ∧ (∀ e, scErr = some e →
        ∃ c, (st.Close rcErr rbErr scErr).2.1 = some c ∧
          (st.Close rcErr rbErr scErr).1.lastErr = some c ∧
          errContains (GoError.wrapped "error closing statement" e) c = true)
    ∧ (∀ e, st.rows.isSome = true → rcErr = some e →
        ∃ c, (st.Close rcErr rbErr scErr).2.1 = some c ∧
          (st.Close rcErr rbErr scErr).1.lastErr = some c ∧
          errContains (GoError.wrapped "error closing rows" e) c = true) := by
  obtain ⟨bs, le, res, rows, nr⟩ := st
  cases rows <;> cases rcErr <;> cases rbErr <;> cases scErr <;>
    simp [Statement.Close, errContains]

/-- C3 witness: at a concrete statement whose rollback fails, the rollback
operation is in the trace. -/
theorem C3_close_rollback_and_error_chaining_witness :
    CloseAction.rollbackTxn ∈
      (({} : Statement).Close none (some GoError.invalidTLSConfig) none).2.2 :=
  (C3_close_rollback_and_error_chaining ({} : Statement) none
    (some GoError.invalidTLSConfig) none).2.1

/-- C4: named binds accumulate in insertion order and are handed to the driver
before any positional arguments; the bind list is cleared by
`ExecContext`/`QueryContext` regardless of the driver outcome, but is NOT
cleared by `QueryRowContext`. -/
theorem C4_bind_order_and_clearing (st : Statement) (k : String) (v : GoValue)
    (driverExec driverQuery : List SqlArg → Option Nat × Option GoError)
    (driverQueryRow : List SqlArg → Nat) (args : List GoValue) :
    (st.Bind k v).binds = st.binds ++ [⟨k, v⟩]
    ∧ (st.ExecContext driverExec args).sentArgs =
        st.binds.map SqlArg.ofNamed ++ args.map SqlArg.positional
    ∧ (st.ExecContext driverExec args).statement.binds = []
    ∧ (st.QueryContext driverQuery args).sentArgs =
        st.binds.map SqlArg.ofNamed ++ args.map SqlArg.positional
    ∧ (st.QueryContext driverQuery args).statement.binds = []
    ∧ (st.QueryRowContext driverQueryRow args).2.2 =
        st.binds.map SqlArg.ofNamed ++ args.map SqlArg.positional
    ∧ (st.QueryRowContext driverQueryRow args).1.binds = st.binds :=
  ⟨rfl, rfl, rfl, rfl, rfl, rfl, rfl⟩

/-- C5 counterexample: on a DSN with a second `@`, the oracle parser stores as
`host` only the segment between the first and second `@` — not "everything
after the first `@`" as claimed. -/
theorem C5_counterexample :
    (oracleParseDSN { dsnString := "user/pass@host@extra" }).2 = none ∧
    (oracleParseDSN { dsnString := "user/pass@host@extra" }).1.getData "host"
      = "host" ∧
    (oracleParseDSN { dsnString := "user/pass@host@extra" }).1.getData "host"
      ≠ "host@extra" := by decide

/-- C5 amended: `oracleParseDSN` fails with the InvalidFormat error
`"invalid Oracle DSN string"` (leaving the configuration untouched) unless the
DSN contains both `/` and `@` with the first `/` before the first `@`; on
success, `user` is the pre-`@` text up to its first `/`, `pass` is the segment
of the pre-`@` text between its first and second `/` (the whole remainder when
there is only one `/`), and `host` is the segment between the first and second
`@` (the whole remainder when there is only one `@`). -/
theorem C5_oracle_parse_fields (cfg : Config) :
    (('/' ∈ cfg.dsnString.toList ∧ '@' ∈ cfg.dsnString.toList ∧
        goIndex cfg.dsnString.toList '/' < goIndex cfg.dsnString.toList '@') →
      (oracleParseDSN cfg).2 = none ∧
      (oracleParseDSN cfg).1.getData "user" =
        String.mk ((cfg.dsnString.toList.takeWhile (neChar '@')).takeWhile
          (neChar '/')) ∧
      (oracleParseDSN cfg).1.getData "pass" =
        String.mk ((((cfg.dsnString.toList.takeWhile (neChar '@')).dropWhile
          (neChar '/')).drop 1).takeWhile (neChar '/')) ∧
      (oracleParseDSN cfg).1.getData "host" =
        String.mk (((cfg.dsnString.toList.dropWhile (neChar '@')).drop
          1).takeWhile (neChar '@')))
    ∧ (¬ ('/' ∈ cfg.dsnString.toList ∧ '@' ∈ cfg.dsnString.toList ∧
        goIndex cfg.dsnString.toList '/' < goIndex cfg.dsnString.toList '@') →
      (oracleParseDSN cfg).2 = some GoError.invalidOracleDSN ∧
      (oracleParseDSN cfg).1 = cfg) := by
  constructor
  · rintro ⟨h1, h2, h3⟩
    have hmem : '/' ∈ cfg.dsnString.toList.takeWhile (neChar '@') :=
      mem_takeWhile_of_goIndex_lt '/' '@' cfg.dsnString.toList h1 h2 h3
    unfold oracleParseDSN
    rw [if_pos ⟨h1, h2, h3⟩]
    dsimp only
    refine ⟨rfl, ?_, ?_, ?_⟩
    · rw [getData_setData_other _ _ _ _ (by decide),
        getData_setData_other _ _ _ _ (by decide), getData_setData_same]
      rw [splitChar_getD_zero, splitChar_getD_zero]
    · rw [getData_setData_other _ _ _ _ (by decide), getData_setData_same]
      rw [splitChar_getD_zero, splitChar_getD_one _ _ hmem]
    · rw [getData_setData_same]
      rw [splitChar_getD_one _ _ h2]
  · intro hn
    unfold oracleParseDSN
    rw [if_neg hn]
    exact ⟨rfl, rfl⟩

/-- C5 witness: the amended success equations at the repository's own test
DSN. -/
theorem C5_oracle_parse_fields_witness :
    (oracleParseDSN { dsnString := "username/password@hostname" }).2 = none :=
  ((C5_oracle_parse_fields
      { dsnString := "username/password@hostname" }).1
    ⟨by decide, by decide, by decide⟩).1

/-- C6: with an empty `dsnString`, `ParseDSN` fails with the EmptyInput error
(`"DSNString is empty"`) regardless of all other fields — including any
configured custom parser and any `driverType` — and `dsnData`/`params` are
still initialized to (possibly empty) mappings before the error returns. -/
theorem C6_empty_dsn_string (E : Externals)
    (custom : Option (Config → Config × Option GoError)) (cfg : Config)
    (h : cfg.dsnString = "") :
    (cfg.ParseDSN E custom).2 = some GoError.dsnStringEmpty ∧
    (cfg.ParseDSN E custom).1.dsnData = some (cfg.dsnData.getD []) ∧
    (cfg.ParseDSN E custom).1.params = some (cfg.params.getD []) := by
  unfold Config.ParseDSN
  rw [if_pos h]
  exact ⟨rfl, rfl, rfl⟩

/-- C6 witness: a concrete empty-DSN configuration that carries a custom
parser and an engine `driverType` still fails with EmptyInput, with both maps
initialized. -/
theorem C6_empty_dsn_string_witness :
    (Config.ParseDSN { driverType := "oracle", dsnString := "" }
        dummyExternals (some (fun c => (c, none)))).2 =
      some GoError.dsnStringEmpty :=
  (C6_empty_dsn_string dummyExternals (some (fun c => (c, none)))
    { driverType := "oracle", dsnString := "" } rfl).1

theorem dropWhile_ampChar_of_head (l : List Char) (h : l.head? ≠ some '&') :
    l.dropWhile ampChar = l := by
  cases l with
  | nil => rfl
  | cons a t =>
    have ha : a ≠ '&' := by simpa using h
    rw [List.dropWhile_cons]
    simp [ampChar, ha]

theorem trimRightAmp_of_getLast (l : List Char) (h : l.getLast? ≠ some '&') :
    trimRightAmp l = l := by
  unfold trimRightAmp
  have hr : l.reverse.head? ≠ some '&' := by rw [List.head?_reverse]; exact h
  rw [dropWhile_ampChar_of_head _ hr, List.reverse_reverse]

theorem trimRightAmp_append_amp (m : List Char) (h : m.getLast? ≠ some '&') :
    trimRightAmp (m ++ ['&']) = m := by
  unfold trimRightAmp
  rw [List.reverse_append]
  simp only [List.reverse_cons, List.reverse_nil, List.nil_append,
    List.singleton_append]
  rw [List.dropWhile_cons]
  have hamp : ampChar '&' = true := rfl
  rw [hamp]
  simp only [if_true]
  have hr : m.reverse.head? ≠ some '&' := by rw [List.head?_reverse]; exact h
  rw [dropWhile_ampChar_of_head _ hr, List.reverse_reverse]

theorem head_ne_amp_of_user (u : String) (rest : List Char)
    (hu : u.toList.head? ≠ some '&') :
    (u.data ++ (':' :: rest)).head? ≠ some '&' := by
  cases hd : u.data with
  | nil => simp [hd]
  | cons a t =>
    have : u.toList.head? = some a := by simp [String.toList, hd]
    rw [this] at hu
    simpa [hd] using hu

theorem getLast?_append_right_ne_nil (l1 l2 : List Char) (h : l2 ≠ []) :
    (l1 ++ l2).getLast? = l2.getLast? := by
  rw [← List.head?_reverse, ← List.head?_reverse, List.reverse_append]
  cases hr : l2.reverse with
  | nil => exact absurd (by simpa using congrArg List.reverse hr) h
  | cons a t => simp

theorem mysqlFoldParams (ps : List (String × String)) :
    ∀ b : String, ps ≠ [] →
      ps.foldl (fun acc kv => acc ++ (kv.1 ++ "=" ++ kv.2 ++ "&")) b =
        b ++ joinParamsAmp ps ++ "&" := by
  induction ps with
  | nil => intro b h; exact absurd rfl h
  | cons kv rest ih =>
    intro b _
    cases hr : rest with
    | nil =>
      subst hr
      apply String.ext
      simp [joinParamsAmp, String.data_append]
    | cons kv2 t =>
      subst hr
      rw [List.foldl_cons]
      rw [ih (b ++ (kv.1 ++ "=" ++ kv.2 ++ "&")) (by simp)]
      apply String.ext
      simp [joinParamsAmp, String.data_append]

theorem joinParamsAmp_data_ne_nil (ps : List (String × String)) (h : ps ≠ []) :
    (joinParamsAmp ps).data ≠ [] := by
  cases ps with
  | nil => exact absurd rfl h
  | cons kv rest =>
    cases rest with
    | nil => simp [joinParamsAmp, String.data_append]
    | cons kv2 t => simp [joinParamsAmp, String.data_append]

theorem joinParamsAmp_getLast (ps : List (String × String)) (h : ps ≠ [])
    (hv : ∀ kv, ps.getLast? = some kv → kv.2.toList.getLast? ≠ some '&') :
    (joinParamsAmp ps).data.getLast? ≠ some '&' := by
  induction ps with
  | nil => exact absurd rfl h
  | cons kv rest ih =>
    cases hr : rest with
    | nil =>
      subst hr
      have hkv := hv kv rfl
      have hdata : (joinParamsAmp [kv]).data =
          (kv.1.data ++ ['=']) ++ kv.2.data := by
        simp [joinParamsAmp, String.data_append]
      rw [hdata]
      cases h2 : kv.2.data with
      | nil => simp [h2, getLast?_append_right_ne_nil]
      | cons a t =>
        rw [getLast?_append_right_ne_nil _ _ (by simp [h2])]
        rw [show kv.2.toList = kv.2.data from rfl, h2] at hkv
        exact hkv
    | cons kv2 t =>
      subst hr
      have hdata : (joinParamsAmp (kv :: kv2 :: t)).data =
          (kv.1.data ++ ['='] ++ kv.2.data ++ ['&']) ++
            (joinParamsAmp (kv2 :: t)).data := by
        simp [joinParamsAmp, String.data_append]
      rw [hdata]
      rw [getLast?_append_right_ne_nil _ _
        (joinParamsAmp_data_ne_nil (kv2 :: t) (by simp))]
      exact ih (by simp) (fun kv3 h3 => hv kv3 (by simpa using h3))

theorem drop_takeWhile_length (p : Char → Bool) (l : List Char) :
    l.drop (l.takeWhile p).length = l.dropWhile p := by
  induction l with
  | nil => rfl
  | cons a t ih =>
    by_cases h : p a = true
    · simp only [List.takeWhile_cons, h, if_true, List.length_cons,
        List.drop_succ_cons, List.dropWhile_cons, ih]
    · simp [List.takeWhile_cons, h, List.dropWhile_cons]

theorem extractTableCore (c : List Char) :
    (if goIndex c '.' > 0 then String.mk (c.drop ((goIndex c '.').toNat + 1))
     else String.mk c) =
    (if '.' ∈ c ∧ c.head? ≠ some '.' then
       String.mk ((c.dropWhile (neChar '.')).drop 1)
     else String.mk c) := by
  by_cases hm : '.' ∈ c
  · cases c with
    | nil => simp at hm
    | cons a t =>
      by_cases ha : a = '.'
      · subst ha
        have hidx : goIndex ('.' :: t) '.' = 0 := by
          unfold goIndex
          rw [if_pos hm, List.takeWhile_cons, neChar_self]
          simp
        rw [hidx]
        rw [if_neg (by omega), if_neg (by simp)]
      · have hidx : goIndex (a :: t) '.' =
            ((t.takeWhile (neChar '.')).length : Int) + 1 := by
          unfold goIndex
          rw [if_pos hm, List.takeWhile_cons, neChar_of_ne _ _ ha]
          simp only [if_true, List.length_cons]
          omega
        rw [hidx]
        rw [if_pos (by omega), if_pos ⟨hm, by simp [ha]⟩]
        congr 1
        have htn : (((t.takeWhile (neChar '.')).length : Int) + 1).toNat =
            (t.takeWhile (neChar '.')).length + 1 := by omega
        rw [htn, List.drop_succ_cons, List.dropWhile_cons,
          neChar_of_ne _ _ ha]
        simp only [if_true]
        rw [← drop_takeWhile_length (neChar '.') t, List.drop_drop]
  · have hidx : goIndex c '.' = -1 := by unfold goIndex; rw [if_neg hm]
    rw [hidx]
    rw [if_neg (by omega), if_neg (by simp [hm])]

theorem goTrimAmp_data (s : String) :
    (goTrimAmp s).data = trimRightAmp (s.data.dropWhile ampChar) := rfl

/-- C7 counterexample: `strings.Trim(dsn, "&")` removes leading `&` as well,
so a user value beginning with `&` breaks the claimed exact
`user:pass@tcp(host:port)/name` shape: the generated string drops the `&`. -/
theorem C7_counterexample :
    (Config.DSN
        { driverType := "mysql", dsnString := "",
          dsnData := some [("host", "hostname"), ("user", "&username"),
            ("pass", "password"), ("name", "databasename")],
          params := some [] }
        none).1 = "username:password@tcp(hostname:3306)/databasename" ∧
    (Config.DSN
        { driverType := "mysql", dsnString := "",
          dsnData := some [("host", "hostname"), ("user", "&username"),
            ("pass", "password"), ("name", "databasename")],
          params := some [] }
        none).1 ≠ "&username:password@tcp(hostname:3306)/databasename" := by
  decide

theorem mysqlTrimCore (user pass host name port : String)
    (ps : List (String × String))
    (hu : user.toList.head? ≠ some '&')
    (hlast : match ps.getLast? with
      | some kv => kv.2.toList.getLast? ≠ some '&'
      | none => name.toList.getLast? ≠ some '&') :
    goTrimAmp
      (if 0 < ps.length then
        List.foldl (fun acc kv => acc ++ (kv.1 ++ "=" ++ kv.2 ++ "&"))
          (user ++ ":" ++ pass ++ "@tcp(" ++ host ++ ":" ++ port ++ ")/" ++
            name ++ "?") ps
      else
        user ++ ":" ++ pass ++ "@tcp(" ++ host ++ ":" ++ port ++ ")/" ++
          name) =
      user ++ ":" ++ pass ++ "@tcp(" ++ host ++ ":" ++ port ++ ")/" ++ name ++
        (if ps = [] then "" else "?" ++ joinParamsAmp ps) := by
  by_cases hps : ps = []
  · subst hps
    have hname : name.toList.getLast? ≠ some '&' := hlast
    simp only [List.length_nil, lt_irrefl, if_false, if_pos rfl,
      String.append_empty]
    apply String.ext
    rw [goTrimAmp_data]
    have hBd : (user ++ ":" ++ pass ++ "@tcp(" ++ host ++ ":" ++ port ++
        ")/" ++ name).data =
        user.data ++ (':' :: (pass.data ++ ('@' :: 't' :: 'c' :: 'p' :: '(' ::
          (host.data ++ (':' :: (port.data ++ (')' :: '/' ::
            name.data))))))) := by
      simp [String.data_append]
    have hhead : (user ++ ":" ++ pass ++ "@tcp(" ++ host ++ ":" ++ port ++
        ")/" ++ name).data.head? ≠ some '&' := by
      rw [hBd]; exact head_ne_amp_of_user user _ hu
    have hBd2 : (user ++ ":" ++ pass ++ "@tcp(" ++ host ++ ":" ++ port ++
        ")/" ++ name).data =
        (user.data ++ [':'] ++ pass.data ++ ['@', 't', 'c', 'p', '('] ++
          host.data ++ [':'] ++ port.data ++ [')']) ++ ('/' :: name.data) := by
      simp [String.data_append]
    have hlastB : (user ++ ":" ++ pass ++ "@tcp(" ++ host ++ ":" ++ port ++
        ")/" ++ name).data.getLast? ≠ some '&' := by
      rw [hBd2, getLast?_append_right_ne_nil _ _ (by simp)]
      cases hn : name.data with
      | nil => simp [hn]
      | cons a t =>
        rw [List.getLast?_cons_cons]
        have h2 := hname
        rw [show name.toList = name.data from rfl, hn] at h2
        exact h2
    rw [dropWhile_ampChar_of_head _ hhead, trimRightAmp_of_getLast _ hlastB]
    simp [String.data_append]
  · have h0 : 0 < ps.length := List.length_pos.mpr hps
    rw [if_pos h0, if_neg hps]
    rw [mysqlFoldParams ps _ hps]
    apply String.ext
    rw [goTrimAmp_data]
    have hSd : ((user ++ ":" ++ pass ++ "@tcp(" ++ host ++ ":" ++ port ++
        ")/" ++ name ++ "?" ++ joinParamsAmp ps) ++ "&").data =
        (user ++ ":" ++ pass ++ "@tcp(" ++ host ++ ":" ++ port ++
        ")/" ++ name ++ "?" ++ joinParamsAmp ps).data ++ ['&'] :=
      String.data_append _ "&"
    rw [hSd]
    have hMd : (user ++ ":" ++ pass ++ "@tcp(" ++ host ++ ":" ++ port ++
        ")/" ++ name ++ "?" ++ joinParamsAmp ps).data ++ ['&'] =
        user.data ++ (':' :: (pass.data ++ ('@' :: 't' :: 'c' :: 'p' :: '(' ::
          (host.data ++ (':' :: (port.data ++ (')' :: '/' ::
            (name.data ++ ('?' :: ((joinParamsAmp ps).data ++
              ['&'])))))))))) := by
      simp [String.data_append]
    have hhead : ((user ++ ":" ++ pass ++ "@tcp(" ++ host ++ ":" ++ port ++
        ")/" ++ name ++ "?" ++ joinParamsAmp ps).data ++ ['&']).head? ≠
          some '&' := by
      rw [hMd]; exact head_ne_amp_of_user user _ hu
    have hMd2 : (user ++ ":" ++ pass ++ "@tcp(" ++ host ++ ":" ++ port ++
        ")/" ++ name ++ "?" ++ joinParamsAmp ps).data =
        (user.data ++ [':'] ++ pass.data ++ ['@', 't', 'c', 'p', '('] ++
          host.data ++ [':'] ++ port.data ++ [')', '/'] ++ name.data ++
          ['?']) ++ (joinParamsAmp ps).data := by
      simp [String.data_append]
    have hlastM : (user ++ ":" ++ pass ++ "@tcp(" ++ host ++ ":" ++ port ++
        ")/" ++ name ++ "?" ++ joinParamsAmp ps).data.getLast? ≠ some '&' := by
      rw [hMd2, getLast?_append_right_ne_nil _ _
        (joinParamsAmp_data_ne_nil ps hps)]
      refine joinParamsAmp_getLast ps hps (fun kv hkv => ?_)
      have h2 := hlast
      rw [hkv] at h2
      exact h2
    rw [dropWhile_ampChar_of_head _ hhead, trimRightAmp_append_amp _ hlastM]
    simp [String.data_append]

/-- C7 amended: for a mysql configuration with empty DSN string and no custom
DSN function, whose data carries `host`/`user`/`pass`/`name` and optionally a
`port`, `DSN()` produces exactly `user:pass@tcp(host:port)/name` — the port
being the supplied `dsnData` value when present and `"3306"` when absent —
followed, when params are non-empty, by `?` and the `&`-joined `k=v` entries
with the trailing `&` trimmed; provided the universal `&`-trim has nothing
else to remove, i.e. the user does not begin with `&` and the last rendered
character (the last param value, or the name when there are no params) does
not end with `&`. -/
theorem C7_mysql_dsn_format (user pass host name : String)
    (port? : Option String) (ps : List (String × String))
    (hu : user.toList.head? ≠ some '&')
    (hlast : match ps.getLast? with
      | some kv => kv.2.toList.getLast? ≠ some '&'
      | none => name.toList.getLast? ≠ some '&') :
    (Config.DSN
        { driverType := "mysql", dsnString := "",
          dsnData := some
            (match port? with
             | some p =>
               [("host", host), ("user", user), ("pass", pass),
                ("name", name), ("port", p)]
             | none =>
               [("host", host), ("user", user), ("pass", pass),
                ("name", name)]),
          params := some ps }
        none).1 =
      user ++ ":" ++ pass ++ "@tcp(" ++ host ++ ":" ++ port?.getD "3306" ++
        ")/" ++ name ++
        (if ps = [] then "" else "?" ++ joinParamsAmp ps) := by
  cases port? with
  | none =>
    simp only [Option.getD_none]
    simp [Config.DSN, Config.generateDSN, mysqlGenerateDSN, goMapHas,
      goMapLookup, goMapSet, goMapGet, Option.getD, Option.isSome]
    exact mysqlTrimCore user pass host name "3306" ps hu hlast
  | some p =>
    simp only [Option.getD_some]
    simp [Config.DSN, Config.generateDSN, mysqlGenerateDSN, goMapHas,
      goMapLookup, goMapSet, goMapGet, Option.getD, Option.isSome]
    exact mysqlTrimCore user pass host name p ps hu hlast

/-- C7 witness: the claim's own concrete example (no supplied port, so it
defaults to 3306).  The configuration from the repository test generates
exactly `username:password@tcp(hostname:3306)/databasename?dsnfn=package`. -/
theorem C7_mysql_dsn_format_witness :
    (Config.DSN
        { driverType := "mysql", dsnString := "",
          dsnData := some [("host", "hostname"), ("user", "username"),
            ("pass", "password"), ("name", "databasename")],
          params := some [("dsnfn", "package")] }
        none).1 =
      "username:password@tcp(hostname:3306)/databasename?dsnfn=package" := by
  have h := C7_mysql_dsn_format "username" "password" "hostname"
    "databasename" none [("dsnfn", "package")] (by decide)
    ((by decide : "package".toList.getLast? ≠ some '&'))
  rw [h]
  decide

theorem pqIter_error_empty (acc : List (String × String)) (l : List Char)
    (m : List (String × String)) (e : GoError)
    (h : pqIter acc l = .stop (m, some e)) : m = [] ∨ e = GoError.outOfFuel := by
  unfold pqIter at h
  dsimp only at h
  split at h
  · exact absurd h (by simp)
  · split at h
    · left; cases h; rfl
    · split at h
      · exact absurd h (by simp)
      · split at h
        · split at h
          · left; cases h; rfl
          · exact absurd h (by simp)
        · split at h
          · left; cases h; rfl
          · exact absurd h (by simp)

theorem pqParseLoop_missingEquals (fuel : Nat) :
    ∀ (acc : List (String × String)) (l : List Char) (k : String),
      (pqParseLoop fuel acc l).2 = some (GoError.missingEquals k) →
      (pqParseLoop fuel acc l).1 = [] := by
  induction fuel with
  | zero => intro acc l k h; simp [pqParseLoop] at h
  | succ f ih =>
    intro acc l k
    unfold pqParseLoop
    split
    · next r hiter =>
      obtain ⟨m, me⟩ := r
      intro h
      try dsimp only at h
      subst h
      rcases pqIter_error_empty acc l m (GoError.missingEquals k) hiter with h1 | h1
      · exact h1
      · exact absurd h1 (by simp)
    · exact fun h => ih _ _ _ h

theorem escFoldr_plain (l : List Char)
    (h : ∀ c ∈ l, c ≠ '\\' ∧ c ≠ dquoteChar) : l.foldr escChar [] = l := by
  induction l with
  | nil => rfl
  | cons c t ih =>
    have hc := h c (List.mem_cons_self c t)
    have ht : ∀ x ∈ t, x ≠ '\\' ∧ x ≠ dquoteChar :=
      fun x hx => h x (List.mem_cons_of_mem c hx)
    simp [List.foldr_cons, escChar, hc.1, hc.2, ih ht]

theorem goQuote_plain (s : String)
    (h : ∀ c ∈ s.toList, c ≠ '\\' ∧ c ≠ dquoteChar) :
    goQuote s = "\"" ++ s ++ "\"" := by
  unfold goQuote
  rw [escFoldr_plain s.toList h]
  rfl

/-- C8 counterexample: the missing-`=` message carries a stray trailing double
quote (faithful to the source's format string
`missing "=" after %q in connection info string"`), so the exact message of
the claim — without that trailing quote — is not what the code produces. -/
theorem C8_counterexample :
    (pqParseDSN "foo").1 = [] ∧
    (pqParseDSN "foo").2 = some (GoError.missingEquals "foo") ∧
    goErrorMessage (GoError.missingEquals "foo") =
      "missing \"=\" after \"foo\" in connection info string\"" ∧
    goErrorMessage (GoError.missingEquals "foo") ≠
      "missing \"=\" after \"foo\" in connection info string" := by decide

/-- C8 amended: whenever the tokenizer fails because a scanned key is not
followed (after optional whitespace) by `=`, it returns an empty result
mapping together with a MalformedInput error identifying that key whose
message is `missing "=" after "<key>" in connection info string"` — note the
trailing double quote inherited from the source's format string (`<key>`
rendered `%q`-quoted; for keys without backslashes or double quotes that is
plain double-quoting). -/
theorem C8_missing_equals_empty_map_and_message (s : String) (k : String)
    (h : (pqParseDSN s).2 = some (GoError.missingEquals k)) :
    (pqParseDSN s).1 = [] ∧
    ((∀ c ∈ k.toList, c ≠ '\\' ∧ c ≠ dquoteChar) →
      goErrorMessage (GoError.missingEquals k) =
        "missing \"=\" after " ++ ("\"" ++ k ++ "\"") ++
          " in connection info string\"") := by
  refine ⟨pqParseLoop_missingEquals _ _ _ _ h, fun hp => ?_⟩
  have hq := goQuote_plain k hp
  simp only [goErrorMessage]
  rw [hq]

/-- C8 witness: a concrete input whose second token is not followed by `=`;
the mapping comes back empty and the message carries the trailing quote. -/
theorem C8_missing_equals_empty_map_and_message_witness :
    (pqParseDSN "abc def").1 = [] ∧
    goErrorMessage (GoError.missingEquals "abc") =
      "missing \"=\" after " ++ ("\"" ++ "abc" ++ "\"") ++
        " in connection info string\"" := by
  have h := C8_missing_equals_empty_map_and_message "abc def" "abc" (by decide)
  exact ⟨h.1, h.2 (by decide)⟩

/-- C9: the query-parsing callback classifies
`SELECT * FROM my_schema.my_table` as operation `select` with collection
`my_table` (schema qualifier stripped), `INSERT INTO t (a) VALUES (1)` as
`insert`/`t`, `UPDATE LOW_PRIORITY IGNORE t SET x=1` as `update`/`t`; and for
every query whose (lower-cased) first word is not a key of the fixed operation
table, both the operation and the collection of the segment are left exactly
as they were (unset stays unset). -/
theorem C9_query_classification :
    ((parseQueryFn "d" "h" {} "SELECT * FROM my_schema.my_table").operation =
        some "select" ∧
      (parseQueryFn "d" "h" {} "SELECT * FROM my_schema.my_table").collection =
        some "my_table") ∧
    ((parseQueryFn "d" "h" {} "INSERT INTO t (a) VALUES (1)").operation =
        some "insert" ∧
      (parseQueryFn "d" "h" {} "INSERT INTO t (a) VALUES (1)").collection =
        some "t") ∧
    ((parseQueryFn "d" "h" {} "UPDATE LOW_PRIORITY IGNORE t SET x=1").operation
        = some "update" ∧
      (parseQueryFn "d" "h" {}
          "UPDATE LOW_PRIORITY IGNORE t SET x=1").collection = some "t") ∧
    (∀ (q : String) (seg : Segment) (dbn hs : String),
      goMapLookup sqlOperations (goToLower (firstWord (cleanQuery q))) = none →
      (parseQueryFn dbn hs seg q).operation = seg.operation ∧
      (parseQueryFn dbn hs seg q).collection = seg.collection) := by
  refine ⟨by decide, by decide, by decide, ?_⟩
  intro q seg dbn hs h
  unfold parseQueryFn
  dsimp only
  rw [h]
  exact ⟨rfl, rfl⟩

/-- C9 witness: a concrete query with an unrecognized leading verb leaves both
fields unset. -/
theorem C9_query_classification_witness :
    (parseQueryFn "d" "h" {} "FOO bar").operation = none ∧
    (parseQueryFn "d" "h" {} "FOO bar").collection = none := by
  have h := C9_query_classification.2.2.2 "FOO bar" {} "d" "h" (by decide)
  exact ⟨h.1, h.2⟩

/-- C10: the table-name cleaner removes whitespace, backtick, quote,
parenthesis, brace and bracket characters occurring anywhere in the token, and
then keeps the part after the first `.` of the cleaned token only when that
first `.` sits at an index greater than zero — so `catalog.schema.table`
yields `schema.table` (not `table`), a cleaned token beginning with `.` is
returned unchanged, and characters are removed from the middle of a token as
well. -/
theorem C10_extract_table_semantics :
    (∀ s : String,
      extractTable s =
        (if '.' ∈ s.toList.filter (fun ch => !isStripChar ch) ∧
            (s.toList.filter (fun ch => !isStripChar ch)).head? ≠ some '.' then
          String.mk
            (((s.toList.filter (fun ch => !isStripChar ch)).dropWhile
              (neChar '.')).drop 1)
        else String.mk (s.toList.filter (fun ch => !isStripChar ch)))) ∧
    extractTable "catalog.schema.table" = "schema.table" ∧
    extractTable ".hidden" = ".hidden" ∧
    extractTable " `my_ta ble`" = "my_table" := by
  refine ⟨?_, by decide, by decide, by decide⟩
  intro s
  exact extractTableCore (s.toList.filter (fun ch => !isStripChar ch))

end Db
